import Mathlib

/-!
Verification of the concurrent Q&A pair-generation core
(`src/core.py`, with the near-duplicate `src/qna_bm_core.py`).

The development shallowly embeds the pure logic of the pipeline:

* Python string and rounding primitives used by the source are modelled on
  `List Char` / `Nat` (`pyLower`, `pyStrip`, `strHasSub`, `pyRoundDiv`, ...).
  Python's `round` is half-to-even; for the magnitudes used here (budgets and
  chunk counts, all far below 2^50) the float division in the source is exact
  at every tie, so the rational model below coincides with CPython.
* The external generation / review service is an oracle input: each call site
  receives the service outcome (`Except ChatError String`) and a JSON-parsing
  oracle (`String → Option _Obj`) standing for `json.loads` restricted to the
  fields the source reads.
* The shared mutable state of `process_text_file` (`accepted_pairs`,
  `existing_questions`) changes only inside the lock-protected commit section;
  a run of the thread pool is therefore modelled as an arbitrary finite
  sequence of per-candidate events folded over the shared state, which covers
  every interleaving of every pool width.
-/

namespace QnA

/-! ## Python string primitives -/

/-- Whitespace characters stripped by Python `str.strip()` (ASCII subset). -/
def isPySpace (c : Char) : Bool :=
  c = ' ' || c = '\t' || c = '\n' || c = '\r' || c = '\x0b' || c = '\x0c'

/-- Model of Python `str.lower()` (ASCII case mapping). -/
def pyLower (s : String) : String :=
  ⟨s.data.map Char.toLower⟩

/-- Model of Python `str.strip()`: drop leading and trailing whitespace. -/
def pyStrip (s : String) : String :=
  ⟨((s.data.dropWhile isPySpace).reverse.dropWhile isPySpace).reverse⟩

/-- Contiguous-sublist test on character lists (Python `needle in hay`). -/
def listHasSub (hay needle : List Char) : Bool :=
  (List.range (hay.length + 1)).any fun i => needle.isPrefixOf (hay.drop i)

/-- Model of Python `needle in hay` for strings. -/
def strHasSub (hay needle : String) : Bool :=
  listHasSub hay.data needle.data

/-- Model of Python `s.startswith(pre)`. -/
def pyStartsWith (s pre : String) : Bool :=
  pre.data.isPrefixOf s.data

/-- Model of Python slicing `s[a:b]` for `0 ≤ a, b` (as used by the source). -/
def pySlice (s : String) (a b : Nat) : String :=
  ⟨(s.data.drop a).take (b - a)⟩

/-- Positions of the first `"{"` (via `str.find`) and the last `"}"`
(via `str.rfind`) in a line, when both are present. -/
def braceSpan (s : String) : Option (Nat × Nat) :=
  match s.data.findIdx? (fun c => c = '\x7b'), s.data.reverse.findIdx? (fun c => c = '\x7d') with
  | some i, some rj => some (i, s.data.length - 1 - rj)
  | _, _ => none

/-- Model of Python `str.splitlines()` as used in the source: the split lines
are immediately stripped, so splitting on `'\n'` alone is adequate (a spurious
final empty line, or a trailing `'\r'`, is removed by the `strip`/skip that
follows every use). -/
def pyLines (s : String) : List String :=
  s.split (fun c => c = '\n')

/-- Python `x or y` on optional strings: `None` and `""` are falsy. -/
def pyOrOpt (x y : Option String) : Option String :=
  match x with
  | some s => if s = "" then y else some s
  | none => y

/-! ## Python rounding -/

/-- Python `round(a / b)` for naturals with `b > 0`: nearest integer,
ties to even. -/
def pyRoundDiv (a b : Nat) : Nat :=
  let q := a / b
  let r := a % b
  if 2 * r < b then q
  else if 2 * r > b then q + 1
  else if q % 2 = 0 then q else q + 1

/-- Source line 315 of `core.py`: `round(adaptive_max / 10) * 10`. -/
def pyRound10 (n : Nat) : Nat :=
  pyRoundDiv n 10 * 10

/-! ## Data model -/

/-- A candidate / accepted Q&A record.  The source represents these as Python
dicts; the generator of `core.py` builds them with key list
`["question", "answer", "source", "chunk_text"]` (line 176) while the reviewer
builds them with key list `["question", "answer", "source"]` (line 271).
`chunkText = some t` models the presence of the `"chunk_text"` key. -/
structure QPair where
  question : String
  answer : String
  source : String
  chunkText : Option String := none
deriving DecidableEq, Repr

/-- Key list of the Python dict a `QPair` stands for. -/
def recKeys (p : QPair) : List String :=
  ["question", "answer", "source"] ++
    (match p.chunkText with
     | some _ => ["chunk_text"]
     | none => [])

/-- Fields of a parsed generator output line that the source reads
(`obj.get("question")`, `obj.get("answer")`); `none` models an absent key or
JSON `null`. -/
structure GenObj where
  question : Option String := none
  answer : Option String := none
deriving DecidableEq, Repr

/-- Fields of a parsed reviewer response that the source reads. -/
structure RevObj where
  status : Option String := none
  question : Option String := none
  answer : Option String := none
  reason : Option String := none
deriving DecidableEq, Repr

/-! ## Chat helper (`core.py` lines 57-79) -/

/-- Errors raised by `chat`: the source raises `ValueError` with a message
distinguishing missing credentials, rate-limit (HTTP 429), auth (HTTP 401),
and generic API failure. -/
inductive ChatError where
  | noClient
  | rateLimit
  | authInvalid
  | api (msg : String)
deriving DecidableEq, Repr

/-- Classification of an underlying service exception message
(`core.py` lines 71-79). -/
def classifyApiError (msg : String) : ChatError :=
  if strHasSub msg "429" || strHasSub (pyLower msg) "rate limit" then .rateLimit
  else if strHasSub msg "401" || strHasSub (pyLower msg) "unauthorized" then .authInvalid
  else .api msg

/-- Model of `chat`: `clientInitialized` is `client is not None`; `svcOutcome`
is the outcome of `client.chat.completions.create(...)`, with payload the
optional `message.content` (the source substitutes `""` for `None`). -/
def chat (clientInitialized : Bool) (svcOutcome : Except String (Option String)) :
    Except ChatError String :=
  if !clientInitialized then .error .noClient
  else
    match svcOutcome with
    | .ok content => .ok (content.getD "")
    | .error msg => .error (classifyApiError msg)

/-! ## Budget allocator (`core.py` lines 308-333 and 355-361) -/

/-- Resolution of the global target in `process_text_file`
(lines 308-333): adaptive estimate from word count and chunk count, clamped
to `[50, 200]`, rounded to the nearest 10, then capped by a positive user
`max_pairs` if one is supplied. -/
def resolveGlobalTarget (wordCount totalChunks : Nat) (maxPairs : Option Int) : Nat :=
  let estimated := min (wordCount / 40) (totalChunks * 20)
  let adaptiveMax := max 50 (min 200 estimated)
  let adaptive := pyRound10 adaptiveMax
  match maxPairs with
  | some c => if 0 < c then (if c < (adaptive : Int) then c.toNat else adaptive) else adaptive
  | none => adaptive

/-- Spec wording (§4.2): `A = clamp(round_to_nearest_10(min(N // 40, K * 20)), 50, 200)`. -/
def specAdaptiveTarget (wordCount totalChunks : Nat) : Nat :=
  max 50 (min 200 (pyRound10 (min (wordCount / 40) (totalChunks * 20))))

/-- Spec wording (§4.2): `G = min(A, C)` for a positive user cap `C`,
`G = A` otherwise. -/
def specGlobalTarget (wordCount totalChunks : Nat) (maxPairs : Option Int) : Nat :=
  match maxPairs with
  | some c =>
      if 0 < c then min (specAdaptiveTarget wordCount totalChunks) c.toNat
      else specAdaptiveTarget wordCount totalChunks
  | none => specAdaptiveTarget wordCount totalChunks

/-- Per-chunk cap computed at entry to generation (`core.py` lines 355-361). -/
def capThisChunk (maxPairs produced total idx : Nat) : Nat :=
  let remainingBudget := maxPairs - produced
  let remainingAfterThis := max 1 (total + 1 - idx)
  min 20 (max 0 (pyRoundDiv remainingBudget remainingAfterThis))

/-- Spec wording (§4.2): `cap = clamp(round(remaining_budget / remaining_chunks), 0, 20)`. -/
def specChunkCap (g produced total idx : Nat) : Nat :=
  let remainingBudget := g - produced
  let remainingChunks := max 1 (total + 1 - idx)
  min (max (pyRoundDiv remainingBudget remainingChunks) 0) 20

/-! ## Chunker (`core.py` lines 82-100; `qna_bm_core.py` lines 82-95)

The source first computes `words = text.split()`; the loop below operates on
that word list, which we take as the input.  Both modules run the same loop
(`core.py` writes it as a `while`, `qna_bm_core.py` as `for i in
range(0, len(words), step)`): starting at `i = 0` and stepping by
`step = max(1, size - overlap)`, emit `(" ".join(words[i:i+size]), i,
min(i+size, len(words)))` while `i < len(words)`. -/

/-- Loop step `max(1, size - overlap)` (`core.py` line 88). -/
def chunkStep (size overlap : Nat) : Nat :=
  max 1 (size - overlap)

/-- Python `" ".join(ws)`. -/
def joinSp (ws : List String) : String :=
  String.intercalate " " ws

/-- The chunking loop, from word index `i`. -/
def chunkLoop (words : List String) (size overlap i : Nat) : List (String × Nat × Nat) :=
  if h : i < words.length then
    (joinSp ((words.drop i).take size), i, min (i + size) words.length)
      :: chunkLoop words size overlap (i + chunkStep size overlap)
  else []
termination_by words.length - i
decreasing_by
  have h1 : 1 ≤ chunkStep size overlap := Nat.le_max_left _ _
  omega

/-- Model of `chunk_words` on the split word list. -/
def chunkWords (words : List String) (size overlap : Nat) : List (String × Nat × Nat) :=
  if words.isEmpty then [] else chunkLoop words size overlap 0

/-- Span projection of the chunking loop (depends only on the word count). -/
def spanLoop (n size overlap i : Nat) : List (Nat × Nat) :=
  if i < n then
    (i, min (i + size) n) :: spanLoop n size overlap (i + chunkStep size overlap)
  else []
termination_by n - i
decreasing_by
  have h1 : 1 ≤ chunkStep size overlap := Nat.le_max_left _ _
  omega

/-- The `(start, end)` spans of the chunks produced by `chunk_words`. -/
def chunkSpans (words : List String) (size overlap : Nat) : List (Nat × Nat) :=
  (chunkWords words size overlap).map (fun c => c.2)

/-! ## Candidate generator (`core.py` lines 103-180)

The prompt assembly (lines 115-144) only feeds the external service and is
absorbed into the service oracle.  `jsonParse` stands for `json.loads`
restricted to the two fields the source reads; returning `none` models a
`json.JSONDecodeError` (or a parse result that is not a dict). -/

/-- Per-line JSON extraction (lines 159-170): parse the line directly; on
failure, if the line contains both braces, parse the slice from the first
`"{"` to the last `"}"`. -/
def parseGenLine (jsonParse : String → Option GenObj) (line : String) : Option GenObj :=
  match jsonParse line with
  | some o => some o
  | none =>
    match braceSpan line with
    | some (s, e) => jsonParse (pySlice line s (e + 1))
    | none => none

/-- Body of the line loop (lines 155-176): strip the line, skip empties and
code fences, parse, strip the two fields, and keep the record when both are
non-empty.  The appended record carries the four keys of line 176, including
`chunk_text`. -/
def genLineStep (jsonParse : String → Option GenObj) (srcLabel chunkText : String)
    (acc : List QPair) (line0 : String) : List QPair :=
  if pyStrip line0 = "" then acc
  else if pyStartsWith (pyStrip line0) "\x60\x60\x60" then acc
  else
    match parseGenLine jsonParse (pyStrip line0) with
    | none => acc
    | some o =>
      if pyStrip ((pyOrOpt o.question (some "")).getD "") ≠ "" ∧
          pyStrip ((pyOrOpt o.answer (some "")).getD "") ≠ "" then
        acc ++ [⟨pyStrip ((pyOrOpt o.question (some "")).getD ""),
                 pyStrip ((pyOrOpt o.answer (some "")).getD ""),
                 srcLabel, some chunkText⟩]
      else acc

/-- Model of `generate_pairs_for_chunk`.  `chatRes` is the outcome of the
`chat` call of line 147; the `try/except` of lines 146-150 catches any error
and returns the empty list, so every branch of the model is `Except.ok`. -/
def generatePairsForChunk (chunkText sourceName : String) (title : Option String)
    (capThisChunkArg : Option Int)
    (totalTarget producedSoFar remainingChunks : Option Int) (chunkIdx : Option Nat)
    (jsonParse : String → Option GenObj) (chatRes : Except ChatError String) :
    Except ChatError (List QPair) :=
  let srcLabel :=
    match chunkIdx with
    | some i => if i ≠ 0 then sourceName ++ " Chunk " ++ toString i else sourceName
    | none => sourceName
  match chatRes with
  | .error _ => .ok []
  | .ok raw =>
    if pyStrip raw = "" then .ok []
    else
      let pairs := (pyLines raw).foldl (genLineStep jsonParse srcLabel chunkText) []
      match capThisChunkArg with
      | some c => if 0 ≤ c then .ok (pairs.take c.toNat) else .ok pairs
      | none => .ok pairs

/-! ## Candidate reviewer (`core.py` lines 223-273)

The prompt assembly (lines 225-240) is absorbed into the service oracle.  The
`chat` call of line 242 is *not* under a `try`: a service error propagates out
of `review_pair` (to be caught by the per-chunk handler). -/

/-- JSON extraction from the reviewer response (lines 245-261): direct parse,
then the brace-slice fallback guarded by `start < end`. -/
def extractRevObj (jsonParse : String → Option RevObj) (raw : String) : Option RevObj :=
  match jsonParse raw with
  | some o => some o
  | none =>
    match braceSpan raw with
    | some (s, e) => if s < e + 1 then jsonParse (pySlice raw s (e + 1)) else none
    | none => none

/-- The question actually used on accept/edit (line 268):
`(obj.get("question") or pair.get("question") or "").strip()`. -/
def revFallbackQ (pair : QPair) (obj : RevObj) : String :=
  pyStrip ((pyOrOpt obj.question (pyOrOpt (some pair.question) (some ""))).getD "")

/-- The answer actually used on accept/edit (line 269). -/
def revFallbackA (pair : QPair) (obj : RevObj) : String :=
  pyStrip ((pyOrOpt obj.answer (pyOrOpt (some pair.answer) (some ""))).getD "")

/-- Outcome of `review_pair` on a successful service response `raw0`
(lines 242-273): strip, extract the JSON object, then dispatch on the
lowercased status. -/
def reviewOutcomeOfRaw (pair : QPair) (jsonParse : String → Option RevObj)
    (raw0 : String) : Option QPair × Option String :=
  match extractRevObj jsonParse (pyStrip raw0) with
  | none => (none, some "cannot_parse_reviewer")
  | some obj =>
    if pyLower (obj.status.getD "") = "reject" then
      (none, some (obj.reason.getD "rejected"))
    else if pyLower (obj.status.getD "") = "accept" ∨ pyLower (obj.status.getD "") = "edit" then
      (if revFallbackQ pair obj ≠ "" ∧ revFallbackA pair obj ≠ "" then
        (some ⟨revFallbackQ pair obj, revFallbackA pair obj, pair.source, none⟩, none)
      else (none, some ("invalid_status: " ++ pyLower (obj.status.getD ""))))
    else (none, some ("invalid_status: " ++ pyLower (obj.status.getD "")))

/-- Model of `review_pair`, returning the source's
`(accepted_pair_or_None, reason_or_None)` tuple.  The `chat` call of line 242
is not under a `try`, so a service error propagates out. -/
def reviewPair (pair : QPair) (jsonParse : String → Option RevObj)
    (chatRes : Except ChatError String) :
    Except ChatError (Option QPair × Option String) :=
  match chatRes with
  | .error e => .error e
  | .ok raw0 => .ok (reviewOutcomeOfRaw pair jsonParse raw0)

/-! ## Similarity (`difflib.SequenceMatcher(None, a, b).ratio()`)

`is_dup_question` (`core.py` lines 276-284) delegates to the standard-library
`difflib`.  The model below implements CPython's matcher for the
`isjunk=None` case without the autojunk heuristic (autojunk is inert for
second arguments shorter than 200 characters): the longest matching block is
the longest common contiguous run, ties resolved towards the earliest end
position in `a`, then in `b`; the total match count recurses on the pieces to
the left and right of that block, and the score is `2 * M / (len a + len b)`
(`1` when both are empty). -/

/-- Length of the run of equal characters ending at positions `i`, `j`
(inclusive) of `a`, `b`. -/
def endRun (a b : List Char) (i j : Nat) : Nat :=
  (((a.take (i + 1)).reverse.zip ((b.take (j + 1)).reverse)).takeWhile
    (fun p => p.1 = p.2)).length

/-- One scan step of `find_longest_match`: at end position `(i, j)` the run
length is compared against the best size so far, strictly. -/
def bestStep (a b : List Char) (best : Nat × Nat × Nat) (ij : Nat × Nat) :
    Nat × Nat × Nat :=
  let k := endRun a b ij.1 ij.2
  if best.2.2 < k then (ij.1 + 1 - k, ij.2 + 1 - k, k) else best

/-- Model of `find_longest_match` over the whole of `a × b`: returns
`(start in a, start in b, size)`. -/
def findBest (a b : List Char) : Nat × Nat × Nat :=
  (List.range a.length).foldl
    (fun best i =>
      (List.range b.length).foldl (fun best2 j => bestStep a b best2 (i, j)) best)
    (0, 0, 0)

theorem endRun_le_left (a b : List Char) (i j : Nat) : endRun a b i j ≤ i + 1 := by
  unfold endRun
  calc _ ≤ (((a.take (i+1)).reverse.zip ((b.take (j+1)).reverse))).length :=
        (List.takeWhile_sublist _).length_le
    _ ≤ ((a.take (i+1)).reverse).length := by
        rw [List.length_zip]; exact Nat.min_le_left _ _
    _ ≤ i + 1 := by simp

theorem endRun_le_right (a b : List Char) (i j : Nat) : endRun a b i j ≤ j + 1 := by
  unfold endRun
  calc _ ≤ (((a.take (i+1)).reverse.zip ((b.take (j+1)).reverse))).length :=
        (List.takeWhile_sublist _).length_le
    _ ≤ ((b.take (j+1)).reverse).length := by
        rw [List.length_zip]; exact Nat.min_le_right _ _
    _ ≤ j + 1 := by simp

/-- The selected block stays inside both sequences. -/
def BestInv (a b : List Char) (r : Nat × Nat × Nat) : Prop :=
  r.1 + r.2.2 ≤ a.length ∧ r.2.1 + r.2.2 ≤ b.length

theorem bestStep_inv (a b : List Char) (best : Nat × Nat × Nat) (i j : Nat)
    (hi : i < a.length) (hj : j < b.length) (h : BestInv a b best) :
    BestInv a b (bestStep a b best (i, j)) := by
  unfold bestStep
  dsimp only
  split
  · refine ⟨?_, ?_⟩
    · have := endRun_le_left a b i j
      simp only
      omega
    · have := endRun_le_right a b i j
      simp only
      omega
  · exact h

theorem findBest_inv (a b : List Char) : BestInv a b (findBest a b) := by
  unfold findBest
  have hout : ∀ (l : List Nat), (∀ i ∈ l, i < a.length) →
      ∀ best, BestInv a b best →
      BestInv a b (l.foldl
        (fun best i => (List.range b.length).foldl
          (fun best2 j => bestStep a b best2 (i, j)) best) best) := by
    intro l
    induction l with
    | nil => intro _ best h; exact h
    | cons x xs ih =>
      intro hmem best h
      have hx : x < a.length := hmem x (List.mem_cons_self _ _)
      have hin : ∀ best, BestInv a b best →
          BestInv a b ((List.range b.length).foldl
            (fun best2 j => bestStep a b best2 (x, j)) best) := by
        intro best0 h0
        have : ∀ (lj : List Nat), (∀ j ∈ lj, j < b.length) →
            ∀ best1, BestInv a b best1 →
            BestInv a b (lj.foldl (fun best2 j => bestStep a b best2 (x, j)) best1) := by
          intro lj
          induction lj with
          | nil => intro _ best1 h1; exact h1
          | cons y ys ihy =>
            intro hmemj best1 h1
            exact ihy (fun j hj => hmemj j (List.mem_cons_of_mem _ hj)) _
              (bestStep_inv a b best1 x y hx (hmemj y (List.mem_cons_self _ _)) h1)
        exact this _ (fun j hj => List.mem_range.mp hj) best0 h0
      exact ih (fun i hi => hmem i (List.mem_cons_of_mem _ hi)) _ (hin best h)
  exact hout _ (fun i hi => List.mem_range.mp hi) _ ⟨Nat.zero_le _, Nat.zero_le _⟩

/-- Total size of all matching blocks (`get_matching_blocks` summed). -/
def matchTotal (a b : List Char) : Nat :=
  if hk : (findBest a b).2.2 = 0 then 0
  else
    have hinv := findBest_inv a b
    matchTotal (a.take (findBest a b).1) (b.take (findBest a b).2.1) + (findBest a b).2.2 +
      matchTotal (a.drop ((findBest a b).1 + (findBest a b).2.2))
        (b.drop ((findBest a b).2.1 + (findBest a b).2.2))
termination_by a.length
decreasing_by
  · have h1 : (findBest a b).1 + (findBest a b).2.2 ≤ a.length := hinv.1
    have h2 : (a.take (findBest a b).1).length = min (findBest a b).1 a.length := by
      simp
    omega
  · have h1 : (findBest a b).1 + (findBest a b).2.2 ≤ a.length := hinv.1
    have h2 : (a.drop ((findBest a b).1 + (findBest a b).2.2)).length
        = a.length - ((findBest a b).1 + (findBest a b).2.2) := by simp
    omega

/-- CPython `SequenceMatcher.ratio()` as an exact rational: `2 M / T`, and `1` when
both strings are empty (CPython's `_calculate_ratio`). -/
def simScore (a b : String) : Rat :=
  let t := a.data.length + b.data.length
  if t = 0 then 1
  else (2 * matchTotal a.data b.data : Rat) / (t : Rat)

/-! ## Duplicate detector (`core.py` lines 276-284) -/

/-- Default duplicate threshold `QNA_DUP_QUESTION_SIM` (0.88). -/
def SIM_THRESH : Rat := 88 / 100

/-- Model of `is_dup_question`: normalise the candidate and every existing
question by `lower().strip()` and flag when any score reaches the
threshold.  The `any` is the source's early-returning `for` loop. -/
def isDupQuestion (question : String) (existingQuestions : List String)
    (threshold : Rat) : Bool :=
  existingQuestions.any fun existingQ =>
    threshold ≤ simScore (pyStrip (pyLower question)) (pyStrip (pyLower existingQ))

/-! ## Skip-review metadata filter (`core.py` lines 391-397) -/

/-- The fixed keyword list of line 395. -/
def metadataKeywords : List String :=
  ["file://", "path://", "http://", "https://", "metadata:", "e-mel:", "@", ".com"]

/-- Source test `any(keyword in q_lower or keyword in a_lower for keyword in
metadata_keywords)` with `q_lower`/`a_lower` the lowercased fields
(lines 392-396). -/
def metadataHit (p : QPair) : Bool :=
  metadataKeywords.any fun k =>
    strHasSub (pyLower p.question) k || strHasSub (pyLower p.answer) k

/-! ## Pipeline coordinator (`core.py` lines 287-463)

The shared state of one `process_text_file` run is the pair
`(accepted_pairs, existing_questions)`, mutated only inside the
lock-protected commit section of lines 405-413.  The other lock acquisitions
(budget read for the cap, budget pre-check, duplicate pre-check, progress
read) never write, so every concurrent execution — any pool width, any
interleaving — serialises, at the lock, into a finite sequence of commit
sections; we model a run as a fold of per-candidate events over the state.
Dropping an event (candidate skipped by a pre-check, chunk aborted by an
exception) only shortens the sequence, which the safety theorems below
quantify over anyway. -/

/-- Shared mutable state (`accepted_pairs`, `existing_questions`). -/
structure PState where
  accepted : List QPair
  seen : List String
deriving Repr

/-- Initial state of a run. -/
def initState : PState := ⟨[], []⟩

/-- The commit-time critical section (lines 405-413): re-check the budget,
re-check duplicates, then append to both collections. -/
def commitPair (maxPairs : Nat) (st : PState) (reviewed : QPair) : PState :=
  if maxPairs ≤ st.accepted.length then st
  else if isDupQuestion reviewed.question st.seen SIM_THRESH then st
  else ⟨st.accepted ++ [reviewed], st.seen ++ [reviewed.question]⟩

/-- Outcome of the review stage for one candidate (lines 389-401): with
`skip_review` the deterministic metadata filter decides and the candidate
passes unchanged; otherwise the external reviewer decides.  A reviewer
service error propagates out of `review_pair` and is caught by the per-chunk
handler (lines 414-416), so the candidate is not committed. -/
def reviewedOutcome (skipReview : Bool) (cand : QPair)
    (revParse : String → Option RevObj) (revChat : Except ChatError String) :
    Option QPair :=
  if skipReview then
    if metadataHit cand then none else some cand
  else
    match reviewPair cand revParse revChat with
    | .ok (some r, _) => some r
    | _ => none

/-- One candidate reaching the review-and-commit stage of some worker,
together with the reviewer-service oracle for it. -/
structure CandEvent where
  cand : QPair
  revParse : String → Option RevObj
  revChat : Except ChatError String

/-- Effect of one candidate event on the shared state. -/
def stepEvent (skipReview : Bool) (maxPairs : Nat) (st : PState) (ev : CandEvent) :
    PState :=
  match reviewedOutcome skipReview ev.cand ev.revParse ev.revChat with
  | some r => commitPair maxPairs st r
  | none => st

/-- Shared state after a serialised sequence of candidate events. -/
def runEvents (skipReview : Bool) (maxPairs : Nat) (evs : List CandEvent) : PState :=
  evs.foldl (stepEvent skipReview maxPairs) initState

/-- The list `process_text_file` returns (line 458): the accepted pairs
sorted by their `source` field. -/
def finalResult (skipReview : Bool) (maxPairs : Nat) (evs : List CandEvent) :
    List QPair :=
  ((runEvents skipReview maxPairs evs).accepted).mergeSort
    (fun x y => decide (x.source ≤ y.source))

/-! ## Helper lemmas -/

theorem le_pyRoundDiv (a b : Nat) : a / b ≤ pyRoundDiv a b := by
  unfold pyRoundDiv
  dsimp only
  split
  · exact Nat.le_refl _
  · split
    · exact Nat.le_succ _
    · split
      · exact Nat.le_refl _
      · exact Nat.le_succ _

theorem pyRound10_clamp_comm (e : Nat) :
    pyRound10 (max 50 (min 200 e)) = max 50 (min 200 (pyRound10 e)) := by
  rcases Nat.lt_or_ge e 200 with h | h
  · have hd : ∀ x, x < 200 →
        pyRound10 (max 50 (min 200 x)) = max 50 (min 200 (pyRound10 x)) := by
      set_option maxRecDepth 4000 in decide
    exact hd e h
  · have h1 : min 200 e = 200 := Nat.min_eq_left h
    have h2 : 200 ≤ pyRound10 e := by
      have h3 : 20 ≤ e / 10 := by omega
      have h4 := le_pyRoundDiv e 10
      unfold pyRound10
      omega
    rw [h1]
    have h5 : min 200 (pyRound10 e) = 200 := Nat.min_eq_left h2
    rw [h5]
    rfl

/-! ## Claim theorems -/

/-- C5.  Global target resolution: for word count `N` and chunk count `K`,
the adaptive target is `A = clamp(round_to_nearest_10(min(N // 40, K * 20)),
50, 200)` (the source clamps before rounding, but the two orders agree), and
the resolved target is `G = min(A, C)` for a positive user cap `C` and
`G = A` otherwise, including for an absent, zero, or negative cap. -/
theorem global_target_resolution (wordCount totalChunks : Nat) (maxPairs : Option Int) :
    resolveGlobalTarget wordCount totalChunks maxPairs
      = specGlobalTarget wordCount totalChunks maxPairs := by
  have hA : pyRound10 (max 50 (min 200 (min (wordCount / 40) (totalChunks * 20))))
      = specAdaptiveTarget wordCount totalChunks :=
    pyRound10_clamp_comm _
  unfold resolveGlobalTarget specGlobalTarget
  cases maxPairs with
  | none => simpa using hA
  | some c =>
    simp only [hA]
    by_cases hc : 0 < c
    · simp only [hc, if_true]
      set A := specAdaptiveTarget wordCount totalChunks with hAdef
      by_cases hlt : c < (A : Int)
      · simp only [hlt, if_true]
        omega
      · simp only [hlt, if_false]
        omega
    · simp [hc]

/-- C6.  Per-chunk cap: for the chunk at 1-indexed position `idx` of `total`,
with `produced` the accepted count read under the lock at entry to
generation, the cap passed to the generator is
`clamp(round(remaining_budget / remaining_chunks), 0, 20)` with
`remaining_budget = max(0, G - produced)` and
`remaining_chunks = max(1, total - idx + 1)`. -/
theorem per_chunk_cap_formula (g produced total idx : Nat) :
    capThisChunk g produced total idx = specChunkCap g produced total idx := by
  show min 20 (max 0 (pyRoundDiv (g - produced) (max 1 (total + 1 - idx))))
    = min (max (pyRoundDiv (g - produced) (max 1 (total + 1 - idx))) 0) 20
  generalize pyRoundDiv (g - produced) (max 1 (total + 1 - idx)) = t
  omega

/-- C3 counterexample.  The claim says a transport failure of the generation
service propagates out of the chunk's generation step as a distinguished
error; in the source (`core.py` lines 146-150) `generate_pairs_for_chunk`
catches the error and returns the empty candidate list instead: at a concrete
rate-limit failure the generation step returns `ok []`, not an error. -/
theorem transport_error_swallowed_cex :
    generatePairsForChunk "teks badan" "dokumen.txt" none none none none none (some 1)
      (fun _ => none) (Except.error ChatError.rateLimit) = Except.ok [] := rfl

/-- C3 amended.  Transport/auth failures are classified by `chat` into
distinguished errors (e.g. a message containing `429` becomes the rate-limit
error), but `generate_pairs_for_chunk` catches every generation-service error
internally and returns the empty candidate list, so no error propagates from
the generation step to the per-chunk handler. -/
theorem transport_error_handling :
    (∀ (chunkText sourceName : String) (title : Option String)
        (cap totalTarget producedSoFar remainingChunks : Option Int)
        (chunkIdx : Option Nat) (jsonParse : String → Option GenObj) (e : ChatError),
        generatePairsForChunk chunkText sourceName title cap totalTarget producedSoFar
          remainingChunks chunkIdx jsonParse (Except.error e) = Except.ok []) ∧
    (∀ msg : String, strHasSub msg "429" = true →
        chat true (Except.error msg) = Except.error ChatError.rateLimit) := by
  constructor
  · intro chunkText sourceName title cap totalTarget producedSoFar remainingChunks
      chunkIdx jsonParse e
    rfl
  · intro msg h
    unfold chat classifyApiError
    simp [h]

/-- C3 witness. -/
theorem transport_error_handling_witness :
    generatePairsForChunk "b" "s" none none none none none none
        (fun _ => none) (Except.error (ChatError.api "boom")) = Except.ok [] ∧
      chat true (Except.error "Error code: 429 - too many requests")
        = Except.error ChatError.rateLimit := by
  refine ⟨transport_error_handling.1 "b" "s" none none none none none none _ _,
    transport_error_handling.2 "Error code: 429 - too many requests" (by decide)⟩

/-- C9.  Zero-cap generation yields nothing: whatever the service returns (or
however it fails), `generate_pairs_for_chunk` called with
`cap_this_chunk = 0` returns the empty list. -/
theorem zero_cap_yields_nothing (chunkText sourceName : String) (title : Option String)
    (totalTarget producedSoFar remainingChunks : Option Int) (chunkIdx : Option Nat)
    (jsonParse : String → Option GenObj) (chatRes : Except ChatError String) :
    generatePairsForChunk chunkText sourceName title (some 0) totalTarget producedSoFar
      remainingChunks chunkIdx jsonParse chatRes = Except.ok [] := by
  unfold generatePairsForChunk
  cases chatRes with
  | error e => rfl
  | ok raw =>
    dsimp only
    split
    · rfl
    · simp

/-! ## Shared-state invariants -/

/-- Combined invariant of the shared state: the two collections are kept
parallel, and no later question reaches the duplicate threshold against any
earlier one. -/
def StateInv (st : PState) : Prop :=
  st.seen = st.accepted.map (fun p => p.question) ∧
  st.accepted.Pairwise (fun earlier later =>
    simScore (pyStrip (pyLower later.question)) (pyStrip (pyLower earlier.question))
      < SIM_THRESH)

theorem commitPair_length_le (maxPairs : Nat) (st : PState) (r : QPair)
    (h : st.accepted.length ≤ maxPairs) :
    (commitPair maxPairs st r).accepted.length ≤ maxPairs := by
  unfold commitPair
  split
  · exact h
  · split
    · exact h
    · rename_i h1 h2
      simp only [List.length_append, List.length_cons, List.length_nil]
      omega

theorem commitPair_inv (maxPairs : Nat) (st : PState) (r : QPair)
    (h : StateInv st) : StateInv (commitPair maxPairs st r) := by
  unfold commitPair
  split
  · exact h
  · split
    · exact h
    · rename_i hbudget hdup
      obtain ⟨hsync, hpw⟩ := h
      constructor
      · simp [hsync]
      · rw [List.pairwise_append]
        refine ⟨hpw, List.pairwise_singleton _ _, ?_⟩
        intro a ha b hb
        have hb1 : b = r := by simpa using hb
        rw [hb1]
        have hmem : a.question ∈ st.seen := by
          rw [hsync]
          exact List.mem_map_of_mem _ ha
        refine lt_of_not_ge ?_
        intro hle
        have ht : isDupQuestion r.question st.seen SIM_THRESH = true := by
          unfold isDupQuestion
          rw [List.any_eq_true]
          exact ⟨a.question, hmem, by simpa using hle⟩
        simp [ht] at hdup

theorem stepEvent_length_le (skipReview : Bool) (maxPairs : Nat) (st : PState)
    (ev : CandEvent) (h : st.accepted.length ≤ maxPairs) :
    (stepEvent skipReview maxPairs st ev).accepted.length ≤ maxPairs := by
  unfold stepEvent
  split
  · exact commitPair_length_le _ _ _ h
  · exact h

theorem stepEvent_inv (skipReview : Bool) (maxPairs : Nat) (st : PState)
    (ev : CandEvent) (h : StateInv st) :
    StateInv (stepEvent skipReview maxPairs st ev) := by
  unfold stepEvent
  split
  · exact commitPair_inv _ _ _ h
  · exact h

theorem foldl_length_le (skipReview : Bool) (maxPairs : Nat) :
    ∀ (evs : List CandEvent) (st : PState), st.accepted.length ≤ maxPairs →
      ((evs.foldl (stepEvent skipReview maxPairs) st).accepted.length ≤ maxPairs)
  | [], st, h => h
  | ev :: evs, st, h =>
    foldl_length_le skipReview maxPairs evs _ (stepEvent_length_le _ _ _ _ h)

theorem foldl_inv (skipReview : Bool) (maxPairs : Nat) :
    ∀ (evs : List CandEvent) (st : PState), StateInv st →
      StateInv (evs.foldl (stepEvent skipReview maxPairs) st)
  | [], _, h => h
  | ev :: evs, st, h =>
    foldl_inv skipReview maxPairs evs _ (stepEvent_inv _ _ _ _ h)

theorem runEvents_inv (skipReview : Bool) (maxPairs : Nat) (evs : List CandEvent) :
    StateInv (runEvents skipReview maxPairs evs) :=
  foldl_inv skipReview maxPairs evs initState ⟨rfl, List.Pairwise.nil⟩

/-- C1.  Budget no-overshoot: for every run configuration (any document, any
user cap, any worker-pool width — all serialised commit sequences are covered
by `evs`), the shared `accepted_pairs` list never exceeds the resolved global
target at any commit, because the budget re-check and the append share one
critical section; consequently the sorted list `process_text_file` returns
has length at most the target. -/
theorem budget_no_overshoot (skipReview : Bool) (maxPairs : Nat) (evs : List CandEvent) :
    (runEvents skipReview maxPairs evs).accepted.length ≤ maxPairs ∧
    (finalResult skipReview maxPairs evs).length ≤ maxPairs := by
  have h : (runEvents skipReview maxPairs evs).accepted.length ≤ maxPairs :=
    foldl_length_le skipReview maxPairs evs initState (Nat.zero_le _)
  refine ⟨h, ?_⟩
  unfold finalResult
  rw [List.length_mergeSort]
  exact h

/-- C4.  Deduplication invariant: in every reachable shared state — hence at
every observation point of every interleaving — no committed question reaches
the duplicate threshold against any question committed before it, across all
chunks: the commit section re-checks the candidate against the full
`existing_questions` list under the lock. -/
theorem dedup_invariant (skipReview : Bool) (maxPairs : Nat) (evs : List CandEvent) :
    ((runEvents skipReview maxPairs evs).accepted).Pairwise
      (fun earlier later =>
        simScore (pyStrip (pyLower later.question)) (pyStrip (pyLower earlier.question))
          < SIM_THRESH) :=
  (runEvents_inv skipReview maxPairs evs).2

/-- C8.  Reviewer outcome handling: an unparseable response drops the
candidate with reason `cannot_parse_reviewer`; an unrecognised status drops
it with an `invalid_status` reason (never a silent accept); on
`accept`/`edit` the question and answer fall back to the original
candidate's values when the response omits (or blanks) them, and if either
resulting field is empty the outcome is invalid and the candidate is
dropped, otherwise exactly the fallback pair is returned. -/
theorem reviewer_outcome_handling :
    (∀ (pair : QPair) (jsonParse : String → Option RevObj) (raw : String),
       extractRevObj jsonParse (pyStrip raw) = none →
       reviewPair pair jsonParse (Except.ok raw)
         = Except.ok (none, some "cannot_parse_reviewer")) ∧
    (∀ (pair : QPair) (jsonParse : String → Option RevObj) (raw : String) (obj : RevObj),
       extractRevObj jsonParse (pyStrip raw) = some obj →
       pyLower (obj.status.getD "") ≠ "reject" →
       pyLower (obj.status.getD "") ≠ "accept" →
       pyLower (obj.status.getD "") ≠ "edit" →
       reviewPair pair jsonParse (Except.ok raw)
         = Except.ok (none, some ("invalid_status: " ++ pyLower (obj.status.getD "")))) ∧
    (∀ (pair : QPair) (jsonParse : String → Option RevObj) (raw : String) (obj : RevObj),
       extractRevObj jsonParse (pyStrip raw) = some obj →
       (pyLower (obj.status.getD "") = "accept" ∨ pyLower (obj.status.getD "") = "edit") →
       (revFallbackQ pair obj ≠ "" → revFallbackA pair obj ≠ "" →
         reviewPair pair jsonParse (Except.ok raw)
           = Except.ok (some ⟨revFallbackQ pair obj, revFallbackA pair obj,
               pair.source, none⟩, none)) ∧
       ((revFallbackQ pair obj = "" ∨ revFallbackA pair obj = "") →
         reviewPair pair jsonParse (Except.ok raw)
           = Except.ok (none, some ("invalid_status: " ++ pyLower (obj.status.getD ""))))) ∧
    (∀ (pair : QPair) (jsonParse : String → Option RevObj) (raw : String)
       (res : Option QPair × Option String) (p : QPair),
       reviewPair pair jsonParse (Except.ok raw) = Except.ok res →
       res.1 = some p → p.question ≠ "" ∧ p.answer ≠ "") := by
  refine ⟨?_, ?_, ?_, ?_⟩
  · intro pair jsonParse raw h
    show Except.ok (reviewOutcomeOfRaw pair jsonParse raw) = _
    unfold reviewOutcomeOfRaw
    rw [h]
  · intro pair jsonParse raw obj h hrej hacc hedit
    show Except.ok (reviewOutcomeOfRaw pair jsonParse raw) = _
    unfold reviewOutcomeOfRaw
    simp only [h]
    have hcond : ¬ (pyLower (obj.status.getD "") = "accept"
        ∨ pyLower (obj.status.getD "") = "edit") := by
      rintro (h1 | h1)
      · exact hacc h1
      · exact hedit h1
    rw [if_neg hrej, if_neg hcond]
  · intro pair jsonParse raw obj h hst
    have hrej : ¬ pyLower (obj.status.getD "") = "reject" := by
      rcases hst with h1 | h1 <;> rw [h1] <;> decide
    constructor
    · intro hq ha
      show Except.ok (reviewOutcomeOfRaw pair jsonParse raw) = _
      unfold reviewOutcomeOfRaw
      simp only [h]
      rw [if_neg hrej, if_pos hst, if_pos ⟨hq, ha⟩]
    · intro hqa
      show Except.ok (reviewOutcomeOfRaw pair jsonParse raw) = _
      unfold reviewOutcomeOfRaw
      simp only [h]
      rw [if_neg hrej, if_pos hst]
      have hno : ¬ (revFallbackQ pair obj ≠ "" ∧ revFallbackA pair obj ≠ "") := by
        rcases hqa with h1 | h1
        · intro hc; exact hc.1 h1
        · intro hc; exact hc.2 h1
      rw [if_neg hno]
  · intro pair jsonParse raw res p hres hp
    have hres2 : reviewOutcomeOfRaw pair jsonParse raw = res := by
      have h1 : (Except.ok (reviewOutcomeOfRaw pair jsonParse raw)
          : Except ChatError (Option QPair × Option String)) = Except.ok res := hres
      exact Except.ok.inj h1
    unfold reviewOutcomeOfRaw at hres2
    revert hres2
    cases hobj : extractRevObj jsonParse (pyStrip raw) with
    | none =>
      intro hres2
      rw [← hres2] at hp
      simp at hp
    | some obj =>
      dsimp only
      split
      · intro hres2; rw [← hres2] at hp; simp at hp
      · split
        · split
          · rename_i hq
            intro hres2
            rw [← hres2] at hp
            simp only [Option.some.injEq] at hp
            rw [← hp]
            exact ⟨hq.1, hq.2⟩
          · intro hres2; rw [← hres2] at hp; simp at hp
        · intro hres2; rw [← hres2] at hp; simp at hp

/-- C8 witness: a concrete `edit` response that omits the question falls back
to the candidate's question and keeps the reviewer's non-empty answer. -/
theorem reviewer_outcome_handling_witness :
    reviewPair ⟨"Soalan asal?", "jawapan asal", "doc.txt Chunk 1", some "teks"⟩
      (fun s => if s = "RESP" then
          some ⟨some "edit", none, some " Jawapannya 42. ", none⟩
        else none)
      (Except.ok "RESP")
      = Except.ok (some ⟨"Soalan asal?", "Jawapannya 42.",
          "doc.txt Chunk 1", none⟩, none) := by
  have h := (reviewer_outcome_handling.2.2.1
    ⟨"Soalan asal?", "jawapan asal", "doc.txt Chunk 1", some "teks"⟩
    (fun s => if s = "RESP" then
        some ⟨some "edit", none, some " Jawapannya 42. ", none⟩
      else none)
    "RESP"
    ⟨some "edit", none, some " Jawapannya 42. ", none⟩
    (by decide) (Or.inr (by decide))).1 (by decide) (by decide)
  rw [h]
  rfl

/-- C10.  Skip-review metadata filtering: with review skipped, a candidate
whose lowercased question or answer contains `".com"` or `"e-mel:"` is
dropped before commit (the shared state is unchanged by its event), even when
no URL scheme, path marker, `"@"`, or `"metadata:"` label occurs; a candidate
containing none of the fixed keywords passes the filter unchanged. -/
theorem skip_review_metadata_filter :
    (∀ (cand : QPair) (revParse : String → Option RevObj)
       (revChat : Except ChatError String),
       (strHasSub (pyLower cand.question) ".com" || strHasSub (pyLower cand.answer) ".com"
        || strHasSub (pyLower cand.question) "e-mel:"
        || strHasSub (pyLower cand.answer) "e-mel:") = true →
       reviewedOutcome true cand revParse revChat = none ∧
       ∀ (maxPairs : Nat) (st : PState),
         stepEvent true maxPairs st ⟨cand, revParse, revChat⟩ = st) ∧
    (∀ (cand : QPair) (revParse : String → Option RevObj)
       (revChat : Except ChatError String),
       (∀ k ∈ metadataKeywords, strHasSub (pyLower cand.question) k = false ∧
          strHasSub (pyLower cand.answer) k = false) →
       reviewedOutcome true cand revParse revChat = some cand) := by
  constructor
  · intro cand revParse revChat h
    have hhit : metadataHit cand = true := by
      unfold metadataHit
      rw [List.any_eq_true]
      simp only [Bool.or_eq_true] at h
      rcases h with ((h1 | h1) | h1) | h1
      · exact ⟨".com", by decide, by simp [h1]⟩
      · exact ⟨".com", by decide, by simp [h1]⟩
      · exact ⟨"e-mel:", by decide, by simp [h1]⟩
      · exact ⟨"e-mel:", by decide, by simp [h1]⟩
    have hout : reviewedOutcome true cand revParse revChat = none := by
      unfold reviewedOutcome
      rw [if_pos rfl, if_pos hhit]
    refine ⟨hout, ?_⟩
    intro maxPairs st
    unfold stepEvent
    rw [hout]
  · intro cand revParse revChat h
    have hhit : metadataHit cand = false := by
      unfold metadataHit
      rw [List.any_eq_false]
      intro k hk
      have := h k hk
      simp [this.1, this.2]
    unfold reviewedOutcome
    rw [if_pos rfl, hhit]
    rfl

/-- C10 witness: a question containing `".com"` (but no URL scheme, path
marker, `"@"`, or `"metadata:"`) is dropped; a keyword-free candidate passes
unchanged. -/
theorem skip_review_metadata_filter_witness :
    reviewedOutcome true
        ⟨"Layari laman contoh.com untuk maklumat lanjut", "Ya", "doc", some "t"⟩
        (fun _ => none) (Except.ok "") = none ∧
    reviewedOutcome true
        ⟨"Apakah maksud istilah ini?", "Maksudnya ialah contoh sahaja.",
          "doc", some "t"⟩
        (fun _ => none) (Except.ok "") = some
        ⟨"Apakah maksud istilah ini?", "Maksudnya ialah contoh sahaja.",
          "doc", some "t"⟩ := by
  constructor
  · exact (skip_review_metadata_filter.1
      ⟨"Layari laman contoh.com untuk maklumat lanjut", "Ya", "doc", some "t"⟩
      (fun _ => none) (Except.ok "") (by decide)).1
  · exact skip_review_metadata_filter.2
      ⟨"Apakah maksud istilah ini?", "Maksudnya ialah contoh sahaja.",
        "doc", some "t"⟩
      (fun _ => none) (Except.ok "") (by decide)

/-! ## Output-shape helpers (C2) -/

theorem genLineStep_shape (jsonParse : String → Option GenObj)
    (srcLabel chunkText : String) (acc : List QPair) (line0 : String)
    (h : ∀ p ∈ acc, p.question ≠ "" ∧ p.answer ≠ "" ∧ p.chunkText = some chunkText) :
    ∀ p ∈ genLineStep jsonParse srcLabel chunkText acc line0,
      p.question ≠ "" ∧ p.answer ≠ "" ∧ p.chunkText = some chunkText := by
  intro p hp
  unfold genLineStep at hp
  split at hp
  · exact h p hp
  · split at hp
    · exact h p hp
    · revert hp
      cases parseGenLine jsonParse (pyStrip line0) with
      | none => intro hp; exact h p hp
      | some o =>
        dsimp only
        split
        · rename_i hqa
          intro hp
          rcases List.mem_append.mp hp with h1 | h1
          · exact h p h1
          · have h2 : p = ⟨pyStrip ((pyOrOpt o.question (some "")).getD ""),
                pyStrip ((pyOrOpt o.answer (some "")).getD ""),
                srcLabel, some chunkText⟩ := by
              simpa using h1
            rw [h2]
            exact ⟨hqa.1, hqa.2, rfl⟩
        · intro hp; exact h p hp

theorem foldl_genLineStep_shape (jsonParse : String → Option GenObj)
    (srcLabel chunkText : String) :
    ∀ (lines : List String) (acc : List QPair),
      (∀ p ∈ acc, p.question ≠ "" ∧ p.answer ≠ "" ∧ p.chunkText = some chunkText) →
      ∀ p ∈ lines.foldl (genLineStep jsonParse srcLabel chunkText) acc,
        p.question ≠ "" ∧ p.answer ≠ "" ∧ p.chunkText = some chunkText
  | [], _, h => h
  | line :: lines, acc, h =>
    foldl_genLineStep_shape jsonParse srcLabel chunkText lines _
      (genLineStep_shape jsonParse srcLabel chunkText acc line h)

theorem reviewOutcomeOfRaw_some_shape (pair : QPair)
    (jsonParse : String → Option RevObj) (raw : String) (r : QPair)
    (h : (reviewOutcomeOfRaw pair jsonParse raw).1 = some r) :
    r.question ≠ "" ∧ r.answer ≠ "" ∧ r.chunkText = none := by
  unfold reviewOutcomeOfRaw at h
  revert h
  cases extractRevObj jsonParse (pyStrip raw) with
  | none => intro h; simp at h
  | some obj =>
    dsimp only
    split
    · intro h; simp at h
    · split
      · split
        · rename_i hqa
          intro h
          simp only [Option.some.injEq] at h
          rw [← h]
          exact ⟨hqa.1, hqa.2, rfl⟩
        · intro h; simp at h
      · intro h; simp at h

theorem reviewedOutcome_false_shape (cand : QPair)
    (revParse : String → Option RevObj) (revChat : Except ChatError String)
    (r : QPair) (h : reviewedOutcome false cand revParse revChat = some r) :
    r.question ≠ "" ∧ r.answer ≠ "" ∧ r.chunkText = none := by
  unfold reviewedOutcome at h
  rw [if_neg (by decide)] at h
  revert h
  cases hrev : reviewPair cand revParse revChat with
  | error e => intro h; simp at h
  | ok res =>
    cases hres : res.1 with
    | none =>
      obtain ⟨res1, res2⟩ := res
      dsimp only at hres
      rw [hres]
      intro h; simp at h
    | some r0 =>
      obtain ⟨res1, res2⟩ := res
      dsimp only at hres
      rw [hres]
      dsimp only
      intro h
      have hr : r0 = r := by simpa using h
      cases revChat with
      | error e => simp [reviewPair] at hrev
      | ok raw0 =>
        have h2 : reviewOutcomeOfRaw cand revParse raw0 = (res1, res2) := by
          have := hrev
          simp only [reviewPair] at this
          exact Except.ok.inj this
        have h3 : (reviewOutcomeOfRaw cand revParse raw0).1 = some r := by
          rw [h2, hres, hr]
        exact reviewOutcomeOfRaw_some_shape cand revParse raw0 r h3

theorem reviewedOutcome_true_eq (cand : QPair)
    (revParse : String → Option RevObj) (revChat : Except ChatError String)
    (r : QPair) (h : reviewedOutcome true cand revParse revChat = some r) :
    r = cand := by
  unfold reviewedOutcome at h
  rw [if_pos rfl] at h
  revert h
  split
  · intro h; simp at h
  · intro h; exact (Option.some.inj h).symm

theorem commitPair_mem (maxPairs : Nat) (st : PState) (r p : QPair)
    (hp : p ∈ (commitPair maxPairs st r).accepted) :
    p ∈ st.accepted ∨ p = r := by
  unfold commitPair at hp
  split at hp
  · exact Or.inl hp
  · split at hp
    · exact Or.inl hp
    · rcases List.mem_append.mp hp with h1 | h1
      · exact Or.inl h1
      · exact Or.inr (by simpa using h1)

theorem foldl_accepted_shape (skipReview : Bool) (maxPairs : Nat) (P : QPair → Prop) :
    ∀ (evs : List CandEvent) (st : PState),
      (∀ ev ∈ evs, ∀ r,
        reviewedOutcome skipReview ev.cand ev.revParse ev.revChat = some r → P r) →
      (∀ p ∈ st.accepted, P p) →
      ∀ p ∈ ((evs.foldl (stepEvent skipReview maxPairs) st).accepted), P p
  | [], _, _, hst => hst
  | ev :: evs, st, hev, hst => by
    apply foldl_accepted_shape skipReview maxPairs P evs _
      (fun e he => hev e (List.mem_cons_of_mem _ he))
    intro p hp
    unfold stepEvent at hp
    revert hp
    cases ho : reviewedOutcome skipReview ev.cand ev.revParse ev.revChat with
    | none => intro hp; exact hst p hp
    | some r =>
      dsimp only
      intro hp
      rcases commitPair_mem maxPairs st r p hp with h1 | h1
      · exact hst p h1
      · rw [h1]
        exact hev ev (List.mem_cons_self _ _) r ho

theorem recKeys_of_none (p : QPair) (h : p.chunkText = none) :
    recKeys p = ["question", "answer", "source"] := by
  unfold recKeys
  rw [h]
  rfl

theorem recKeys_of_isSome (p : QPair) (h : p.chunkText.isSome = true) :
    recKeys p = ["question", "answer", "source", "chunk_text"] := by
  unfold recKeys
  rcases hc : p.chunkText with _ | t
  · rw [hc] at h; simp at h
  · rfl

/-- Candidate used by the C2 counterexample. -/
def cexCand : QPair :=
  ⟨"Apakah warna langit?", "Biru.", "doc.txt Chunk 1", some "teks badan"⟩

/-- C2 counterexample.  The claim says every entry returned by
`process_text_file` has exactly the keys `question`, `answer`, `source`; but
in `core.py` with `skip_review = True` (the default) the commit stores the
generator's candidate dict unchanged, which also carries `chunk_text`
(line 176): a run committing one benign candidate returns a record whose key
list is not `["question", "answer", "source"]`. -/
theorem output_shape_cex :
    finalResult true 50 [⟨cexCand, fun _ => none, Except.ok ""⟩] = [cexCand] ∧
    recKeys cexCand ≠ ["question", "answer", "source"] := by
  constructor
  · have h : (runEvents true 50 [⟨cexCand, fun _ => none, Except.ok ""⟩]).accepted
        = [cexCand] := by decide
    unfold finalResult
    rw [h, List.mergeSort_singleton]
  · decide

/-- C2 amended.  Every entry in the returned list has a non-empty `question`,
a non-empty `answer`, and a string `source`.  With review enabled the record
has exactly the keys `question`, `answer`, `source`; with review skipped (the
default) each committed entry is the generator's candidate unchanged, which
in `core.py` additionally carries the `chunk_text` key (generator candidates
always have non-empty fields and a `chunk_text`). -/
theorem output_record_shape :
    (∀ (chunkText sourceName : String) (title : Option String)
       (cap totalTarget producedSoFar remainingChunks : Option Int)
       (chunkIdx : Option Nat) (jsonParse : String → Option GenObj)
       (chatRes : Except ChatError String) (res : List QPair),
       generatePairsForChunk chunkText sourceName title cap totalTarget producedSoFar
         remainingChunks chunkIdx jsonParse chatRes = Except.ok res →
       ∀ p ∈ res, p.question ≠ "" ∧ p.answer ≠ "" ∧ p.chunkText = some chunkText) ∧
    (∀ (maxPairs : Nat) (evs : List CandEvent),
       ∀ p ∈ (runEvents false maxPairs evs).accepted,
         p.question ≠ "" ∧ p.answer ≠ "" ∧
         recKeys p = ["question", "answer", "source"]) ∧
    (∀ (maxPairs : Nat) (evs : List CandEvent),
       (∀ ev ∈ evs, ev.cand.question ≠ "" ∧ ev.cand.answer ≠ "" ∧
          ev.cand.chunkText.isSome = true) →
       ∀ p ∈ (runEvents true maxPairs evs).accepted,
         p.question ≠ "" ∧ p.answer ≠ "" ∧
         recKeys p = ["question", "answer", "source", "chunk_text"]) := by
  refine ⟨?_, ?_, ?_⟩
  · intro chunkText sourceName title cap totalTarget producedSoFar remainingChunks
      chunkIdx jsonParse chatRes res hres
    revert hres
    unfold generatePairsForChunk
    cases chatRes with
    | error e =>
      intro hres
      have h1 : ([] : List QPair) = res := Except.ok.inj hres
      rw [← h1]
      intro p hp
      simp at hp
    | ok raw =>
      dsimp only
      split
      · intro hres
        have h1 : ([] : List QPair) = res := Except.ok.inj hres
        rw [← h1]
        intro p hp
        simp at hp
      · have hbase : ∀ p ∈ (pyLines raw).foldl
            (genLineStep jsonParse
              (match chunkIdx with
               | some i => if i ≠ 0 then sourceName ++ " Chunk " ++ toString i else sourceName
               | none => sourceName) chunkText) [],
            p.question ≠ "" ∧ p.answer ≠ "" ∧ p.chunkText = some chunkText := by
          apply foldl_genLineStep_shape
          intro p hp
          simp at hp
        cases cap with
        | none =>
          intro hres
          have h1 := Except.ok.inj hres
          rw [← h1]
          exact hbase
        | some c =>
          dsimp only
          split
          · intro hres
            have h1 := Except.ok.inj hres
            rw [← h1]
            intro p hp
            exact hbase p (List.take_subset _ _ hp)
          · intro hres
            have h1 := Except.ok.inj hres
            rw [← h1]
            exact hbase
  · intro maxPairs evs p hp
    have h := foldl_accepted_shape false maxPairs
      (fun r => r.question ≠ "" ∧ r.answer ≠ "" ∧ r.chunkText = none) evs initState
      (fun ev _ r hr => reviewedOutcome_false_shape ev.cand ev.revParse ev.revChat r hr)
      (by intro q hq; simp [initState] at hq) p hp
    exact ⟨h.1, h.2.1, recKeys_of_none p h.2.2⟩
  · intro maxPairs evs hev p hp
    have h := foldl_accepted_shape true maxPairs
      (fun r => r.question ≠ "" ∧ r.answer ≠ "" ∧ r.chunkText.isSome = true) evs initState
      (fun ev he r hr => by
        rw [reviewedOutcome_true_eq ev.cand ev.revParse ev.revChat r hr]
        exact hev ev he)
      (by intro q hq; simp [initState] at hq) p hp
    exact ⟨h.1, h.2.1, recKeys_of_isSome p h.2.2⟩

/-- C2 witness: a concrete skip-review run committing one candidate yields a
record with non-empty fields and the four-key shape. -/
theorem output_record_shape_witness :
    ("Apakah ibu negara Malaysia?" : String) ≠ "" ∧
    ("Kuala Lumpur." : String) ≠ "" ∧
    recKeys ⟨"Apakah ibu negara Malaysia?", "Kuala Lumpur.", "doc.txt Chunk 1", some "teks"⟩
      = ["question", "answer", "source", "chunk_text"] := by
  have hmem : (⟨"Apakah ibu negara Malaysia?", "Kuala Lumpur.", "doc.txt Chunk 1",
      some "teks"⟩ : QPair) ∈
      (runEvents true 50 [⟨⟨"Apakah ibu negara Malaysia?", "Kuala Lumpur.",
        "doc.txt Chunk 1", some "teks"⟩, fun _ => none, Except.ok ""⟩]).accepted := by
    decide
  exact output_record_shape.2.2 50
    [⟨⟨"Apakah ibu negara Malaysia?", "Kuala Lumpur.", "doc.txt Chunk 1", some "teks"⟩,
      fun _ => none, Except.ok ""⟩]
    (by intro ev hev; constructor
        · have h1 : ev = ⟨⟨"Apakah ibu negara Malaysia?", "Kuala Lumpur.",
              "doc.txt Chunk 1", some "teks"⟩, fun _ => none, Except.ok ""⟩ := by
            simpa using hev
          rw [h1]; decide
        · have h1 : ev = ⟨⟨"Apakah ibu negara Malaysia?", "Kuala Lumpur.",
              "doc.txt Chunk 1", some "teks"⟩, fun _ => none, Except.ok ""⟩ := by
            simpa using hev
          rw [h1]; exact ⟨by decide, by decide⟩)
    ⟨"Apakah ibu negara Malaysia?", "Kuala Lumpur.", "doc.txt Chunk 1", some "teks"⟩
    hmem

/-! ## Chunker lemmas (C7) -/

theorem chunkStep_pos (size overlap : Nat) : 1 ≤ chunkStep size overlap :=
  Nat.le_max_left _ _

theorem chunkStep_le (size overlap : Nat) (h : 1 ≤ size) :
    chunkStep size overlap ≤ size := by
  unfold chunkStep
  omega

theorem chunkLoop_spans (words : List String) (size overlap i : Nat) :
    (chunkLoop words size overlap i).map (fun c => c.2)
      = spanLoop words.length size overlap i := by
  rw [chunkLoop, spanLoop]
  by_cases hlt : i < words.length
  · rw [dif_pos hlt, if_pos hlt]
    simp only [List.map_cons]
    rw [chunkLoop_spans words size overlap (i + chunkStep size overlap)]
  · rw [dif_neg hlt, if_neg hlt]
    rfl
termination_by words.length - i
decreasing_by
  have h1 : 1 ≤ chunkStep size overlap := chunkStep_pos size overlap
  omega

theorem chunkSpans_eq_spanLoop (words : List String) (size overlap : Nat)
    (h : words ≠ []) :
    chunkSpans words size overlap = spanLoop words.length size overlap 0 := by
  unfold chunkSpans chunkWords
  rw [if_neg (by simpa using h)]
  exact chunkLoop_spans words size overlap 0

theorem spanLoop_cover (n size overlap : Nat) (hst : chunkStep size overlap ≤ size)
    (i m : Nat) (him : i ≤ m) (hmn : m < n) :
    ∃ sp ∈ spanLoop n size overlap i, sp.1 ≤ m ∧ m < sp.2 := by
  have hin : i < n := Nat.lt_of_le_of_lt him hmn
  rw [spanLoop, if_pos hin]
  by_cases hm : m < min (i + size) n
  · exact ⟨(i, min (i + size) n), List.mem_cons_self _ _, him, hm⟩
  · have h1 : i + chunkStep size overlap ≤ m := by omega
    obtain ⟨sp, hsp, hsp1, hsp2⟩ := spanLoop_cover n size overlap hst
      (i + chunkStep size overlap) m h1 hmn
    exact ⟨sp, List.mem_cons_of_mem _ hsp, hsp1, hsp2⟩
termination_by n - i
decreasing_by
  have := chunkStep_pos size overlap
  omega

theorem spanLoop_last (n size overlap : Nat) (hst : chunkStep size overlap ≤ size)
    (i : Nat) (hin : i < n) :
    ∃ l, (spanLoop n size overlap i).getLast? = some l ∧ l.2 = n := by
  rw [spanLoop, if_pos hin]
  by_cases h2 : i + chunkStep size overlap < n
  · obtain ⟨l, hl, hl2⟩ := spanLoop_last n size overlap hst
      (i + chunkStep size overlap) h2
    refine ⟨l, ?_, hl2⟩
    rw [List.getLast?_cons, hl]
    rfl
  · have htail : spanLoop n size overlap (i + chunkStep size overlap) = [] := by
      rw [spanLoop, if_neg h2]
    rw [htail]
    refine ⟨(i, min (i + size) n), rfl, ?_⟩
    simp only
    omega
termination_by n - i
decreasing_by
  have := chunkStep_pos size overlap
  omega

/-- C7.  Chunk coverage: for every non-empty word sequence with `size ≥ 1`
and `overlap < size`, the produced spans cover `[0, N)` with no gap and the
final span ends at `N`; in particular any 1000-word input with `size = 800`,
`overlap = 100` yields exactly the spans `[0, 800)` and `[700, 1000)`. -/
theorem chunk_coverage :
    (∀ (words : List String) (size overlap : Nat),
       words ≠ [] → 1 ≤ size → overlap < size →
       (∀ n, n < words.length →
          ∃ sp ∈ chunkSpans words size overlap, sp.1 ≤ n ∧ n < sp.2) ∧
       (∃ l, (chunkSpans words size overlap).getLast? = some l ∧
          l.2 = words.length)) ∧
    (∀ words : List String, words.length = 1000 →
       chunkSpans words 800 100 = [(0, 800), (700, 1000)]) := by
  constructor
  · intro words size overlap hne hsz _hov
    have hst : chunkStep size overlap ≤ size := chunkStep_le size overlap hsz
    have hlen : 0 < words.length := List.length_pos.mpr hne
    rw [chunkSpans_eq_spanLoop words size overlap hne]
    constructor
    · intro n hn
      exact spanLoop_cover words.length size overlap hst 0 n (Nat.zero_le _) hn
    · exact spanLoop_last words.length size overlap hst 0 hlen
  · intro words hlen
    have hne : words ≠ [] := by
      intro hc
      rw [hc] at hlen
      simp at hlen
    rw [chunkSpans_eq_spanLoop words 800 100 hne, hlen]
    have hstep : chunkStep 800 100 = 700 := by decide
    have h1400 : spanLoop 1000 800 100 1400 = [] := by
      rw [spanLoop, if_neg (by decide)]
    have h700 : spanLoop 1000 800 100 700 = [(700, 1000)] := by
      rw [spanLoop, if_pos (by decide), hstep]
      norm_num [h1400]
    rw [spanLoop, if_pos (by decide), hstep]
    norm_num [h700]

/-- C7 witness: the cover statement at a concrete three-word input with
`size = 2`, `overlap = 1`, and the scenario at a concrete 1000-word input. -/
theorem chunk_coverage_witness :
    (chunkSpans ["satu", "dua", "tiga"] 2 1).getLast? = some (2, 3) ∧
    chunkSpans (List.replicate 1000 "kata") 800 100 = [(0, 800), (700, 1000)] := by
  have hne : (["satu", "dua", "tiga"] : List String) ≠ [] := by decide
  obtain ⟨l, hl, hl2⟩ :=
    (chunk_coverage.1 ["satu", "dua", "tiga"] 2 1 hne (by decide) (by decide)).2
  have hstep : chunkStep 2 1 = 1 := by decide
  have e3 : spanLoop 3 2 1 3 = [] := by
    rw [spanLoop, if_neg (by decide)]
  have e2 : spanLoop 3 2 1 2 = [(2, 3)] := by
    rw [spanLoop, if_pos (by decide), hstep]
    norm_num [e3]
  have e1 : spanLoop 3 2 1 1 = [(1, 3), (2, 3)] := by
    rw [spanLoop, if_pos (by decide), hstep]
    norm_num [e2]
  have e0 : spanLoop 3 2 1 0 = [(0, 2), (1, 3), (2, 3)] := by
    rw [spanLoop, if_pos (by decide), hstep]
    norm_num [e1]
  have hspans : chunkSpans ["satu", "dua", "tiga"] 2 1 = [(0, 2), (1, 3), (2, 3)] := by
    rw [chunkSpans_eq_spanLoop _ _ _ hne]
    exact e0
  constructor
  · rw [hspans] at hl
    have h5 : ([(0, 2), (1, 3), (2, 3)] : List (Nat × Nat)).getLast? = some (2, 3) := rfl
    rw [h5] at hl
    have hl4 : l = (2, 3) := Option.some.inj hl.symm
    rw [hspans, h5]
  · exact chunk_coverage.2 (List.replicate 1000 "kata")
      (List.length_replicate 1000 "kata")

end QnA
